import Mathlib

/-!
Verification of the libgcrypt SP 800-90A DRBG (random/drbg.c) against its
natural-language specification.

All definitions are shallow embeddings of the C code in random/drbg.c.
Byte buffers are `List Nat` with each entry a byte value below 256; machine
arithmetic wraps explicitly with `% 256` or `% 2 ^ 32` where the C code
uses `unsigned char` / `u32`.  The external collaborators of the DRBG core
(hash / HMAC / block-cipher primitives, the entropy gatherer, the secure
allocator) are parameters of the embedding, as §6 of the spec fixes them as
external interfaces.
-/

namespace Drbg

/-! ### Byte-buffer helpers -/

/-- Value of a byte list read little-endian (head is least significant). -/
def leToNat : List Nat → Nat
  | [] => 0
  | b :: bs => b + 256 * leToNat bs

/-- Value of a byte list read big-endian, the convention of the C code. -/
def beToNat (l : List Nat) : Nat :=
  leToNat l.reverse

/-- Model of `gcry_drbg_cpu_to_be32`: 4-byte big-endian encoding of a `u32` value. -/
def cpuToBe32 (v : Nat) : List Nat :=
  [v / 2 ^ 24 % 256, v / 2 ^ 16 % 256, v / 2 ^ 8 % 256, v % 256]

/-! ### `gcry_drbg_add_buf`

The C function walks both buffers from their last byte towards the first;
the shallow embedding therefore recurses over the reversed (little-endian)
lists and reverses back at the end.  `addBufCarry` is the second `while`
loop (propagate the remaining carry into the higher bytes of `dst`),
`addBufBytes` the first one (add the bytes of `add` into the low bytes of
`dst`). -/

/-- Second loop of `gcry_drbg_add_buf`: while bytes remain and the carry is
positive, set the byte to `byte + 1` and keep the carry.  Input and output
are little-endian. -/
def addBufCarry : List Nat → Nat → List Nat
  | [], _ => []
  | d :: ds, c => if 0 < c then (d + 1) % 256 :: addBufCarry ds ((d + 1) / 256) else d :: ds

/-- First loop of `gcry_drbg_add_buf`: add the bytes of `add` (second
argument) into `dst` with carry.  Input and output are little-endian. -/
def addBufBytes : List Nat → List Nat → Nat → List Nat
  | ds, [], c => addBufCarry ds c
  | [], _ :: _, _ => []
  | d :: ds, a :: as, c => (c + d + a) % 256 :: addBufBytes ds as ((c + d + a) / 256)

/-- Model of `gcry_drbg_add_buf (dst, dstlen, add, addlen)`: big-endian addition of
`add` into `dst`, truncated to the length of `dst`. -/
def gcry_drbg_add_buf (dst add : List Nat) : List Nat :=
  (addBufBytes dst.reverse add.reverse 0).reverse

/-! ### Bounds and strength (`gcry_drbg_max_*`, `gcry_drbg_sec_strength`)

The model fixes the `__LP64__` build, as the claims do. -/

/-- Limit `gcry_drbg_max_request_bytes`: 2^16. -/
def gcry_drbg_max_request_bytes : Nat := 2 ^ 16

/-- Limit `gcry_drbg_max_addtl` on an `__LP64__` build: 2^35. -/
def gcry_drbg_max_addtl : Nat := 2 ^ 35

/-- Limit `gcry_drbg_max_requests` on an `__LP64__` build: 2^48. -/
def gcry_drbg_max_requests : Nat := 2 ^ 48

/-- The DRBG type flags tested by `gcry_drbg_sec_strength`.  The numeric
`GCRY_DRBG_*` bit masks live in a header outside the excerpt; the embedding
keeps one field per tested bit, which is all the C if-chain observes. -/
structure DrbgFlags where
  hashsha1 : Bool
  hashsha256 : Bool
  hashsha384 : Bool
  hashsha512 : Bool
  sym128 : Bool
  sym192 : Bool
  sym256 : Bool
deriving DecidableEq

/-- Model of `gcry_drbg_sec_strength`: strength in bytes per SP800-90A §8.4, with 32
as the fallback against programming errors. -/
def gcry_drbg_sec_strength (flags : DrbgFlags) : Nat :=
  if flags.hashsha1 || flags.sym128 then 16
  else if flags.sym192 then 24
  else if flags.sym256 || flags.hashsha256 || flags.hashsha384 || flags.hashsha512 then 32
  else 32

/-- Entropy request length computed by `gcry_drbg_seed` (drbg.c lines
1184-1204): the security strength, scaled by `((strength+1)/2)*3` for the
initial seed (`reseed = 0`) to cover entropy plus nonce. -/
def gcry_drbg_seed_entropylen (flags : DrbgFlags) (reseed : Nat) : Nat :=
  let entropylen := gcry_drbg_sec_strength flags
  if reseed = 0 then ((entropylen + 1) / 2) * 3 else entropylen

/-! ### gpg error codes

`gpg_err_code_t` is an unsigned 32-bit type from libgpg-error, outside this
repository.  `GPG_ERR_NO_ERROR` is its success value 0; the other numeric
values are irrelevant to the theorems (only identity and zero-vs-nonzero
are used), so representative nonzero constants stand for them. -/

def GPG_ERR_NO_ERROR : Nat := 0
def GPG_ERR_GENERAL : Nat := 1
def GPG_ERR_INV_ARG : Nat := 46
def GPG_ERR_ENOMEM : Nat := 86

/-- Unsigned negation on `gpg_err_code_t`: the value of `-e` computed in
the 32-bit unsigned type. -/
def gpgErrNeg (e : Nat) : Nat :=
  (2 ^ 32 - e % 2 ^ 32) % 2 ^ 32

/-- Error value produced when `gcry_drbg_get_entropy` fails: the C code
returns the `int` value `-1`, which converts to `2^32 - 1` in the unsigned
`gpg_err_code_t` return of `gcry_drbg_seed`. -/
def GPG_ERR_ENTROPY_FAIL : Nat := 2 ^ 32 - 1

/-! ### State and lifecycle (`gcry_drbg_seed`, `gcry_drbg_generate`)

The wrapper layer of drbg.c dispatches through `drbg->d_ops`; the embedding
takes the mechanism operations as a parameter of type `MechOps`.  A
`gcry_drbg_string` argument of the public entry points is a single
caller-owned node; `DrbgStr` keeps its `buf` pointer (`none` = NULL), its
`len` field, and whether its `next` pointer is NULL (tested by
`gcry_drbg_seed` before attaching the personalization string). -/

/-- One caller-provided `struct gcry_drbg_string` node. -/
structure DrbgStr where
  buf : Option (List Nat)
  len : Nat
  nextNull : Bool
deriving DecidableEq

/-- The mutable scalar state of `struct gcry_drbg_state` relevant to the
wrapper layer: the V and C buffers, the reseed counter and the
`seeded` / `pr` bit fields. -/
structure GState where
  V : List Nat
  C : List Nat
  reseed_ctr : Nat
  seeded : Bool
  pr : Bool
deriving DecidableEq

/-- The `gcry_drbg_state_ops` dispatch record.  `update` receives the
gathered entropy bytes together with the attached personalization node;
`generate` receives the requested length and the additional-input node and
returns the error code, the new state and the bytes it wrote into the
output buffer. -/
structure MechOps where
  update : GState → List Nat × Option DrbgStr → Nat → Nat × GState
  generate : GState → Nat → Option DrbgStr → Nat × GState × List Nat

/-- Condition `addtl && NULL == addtl->buf && 0 < addtl->len` (drbg.c line 1261). -/
def addtlMalformed : Option DrbgStr → Bool
  | none => false
  | some a => a.buf.isNone && decide (0 < a.len)

/-- Condition `addtl && addtl->len > gcry_drbg_max_addtl ()` (drbg.c line 1275). -/
def addtlTooLong : Option DrbgStr → Bool
  | none => false
  | some a => decide (gcry_drbg_max_addtl < a.len)

/-- Model of `gcry_drbg_seed` (drbg.c lines 1161-1227).  The entropy gatherer is an
external collaborator; its outcome is the `entropy` parameter (`none` for a
gatherer failure).  The personalization node is attached to the seed chain
only when its buffer is non-NULL, its length positive and its `next`
pointer NULL, exactly as the C condition at line 1210 requires. -/
def gcry_drbg_seed (ops : MechOps) (entropy : Option (List Nat)) (st : GState)
    (pers : Option DrbgStr) (reseed : Nat) : Nat × GState :=
  if (match pers with
      | some p => decide (gcry_drbg_max_addtl < p.len)
      | none => false) then
    (GPG_ERR_INV_ARG, st)
  else
    match entropy with
    | none => (GPG_ERR_ENTROPY_FAIL, st)
    | some e =>
      let attached : Option DrbgStr :=
        match pers with
        | some p => if p.buf.isSome && decide (0 < p.len) && p.nextNull then some p else none
        | none => none
      let r := ops.update st (e, attached) reseed
      if r.1 ≠ 0 then r
      else (0, { r.2 with seeded := true, reseed_ctr := 1 })

/-- Model of `gcry_drbg_generate` (drbg.c lines 1249-1340): argument checks, reseed
counter bound, prediction-resistance / unseeded reseed, mechanism call,
reseed-counter increment. -/
def gcry_drbg_generate (ops : MechOps) (entropy : Option (List Nat)) (st : GState)
    (bufNull : Bool) (buflen : Nat) (addtl : Option DrbgStr) : Nat × GState × List Nat :=
  if buflen = 0 || bufNull then (GPG_ERR_INV_ARG, st, [])
  else if addtlMalformed addtl then (GPG_ERR_INV_ARG, st, [])
  else if gcry_drbg_max_request_bytes < buflen then (GPG_ERR_INV_ARG, st, [])
  else if addtlTooLong addtl then (GPG_ERR_INV_ARG, st, [])
  else
    let st1 := if gcry_drbg_max_requests < st.reseed_ctr then { st with seeded := false } else st
    if st1.pr || !st1.seeded then
      let r := gcry_drbg_seed ops entropy st1 addtl 1
      if r.1 ≠ 0 then (r.1, r.2, [])
      else
        let g := ops.generate r.2 buflen none
        (g.1, { g.2.1 with reseed_ctr := g.2.1.reseed_ctr + 1 }, g.2.2)
    else
      let g := ops.generate st1 buflen addtl
      (g.1, { g.2.1 with reseed_ctr := g.2.1.reseed_ctr + 1 }, g.2.2)

/-- A mechanism whose generate call fails without touching the state or the
output buffer; stands for e.g. an allocation failure in the primitive
adapter (`_gcry_md_open`).  Used to probe the error path of
`gcry_drbg_generate`. -/
def failingOps : MechOps where
  update := fun st _ _ => (0, st)
  generate := fun st _ _ => (GPG_ERR_GENERAL, st, [])

/-- A mechanism that succeeds and writes the requested number of zero
bytes; used to instantiate the wrapper theorems at concrete inputs. -/
def zeroOps : MechOps where
  update := fun st _ _ => (0, st)
  generate := fun st n _ => (0, st, List.replicate n 0)

/-! ### `gcry_drbg_hash_df` (drbg.c lines 909-949)

The hash primitive is the parameter `H`; `blocklen` is
`gcry_drbg_blocklen`, the byte length the adapter writes per call.  The
loop body hashes the 5-byte tag (counter byte, then the big-endian 32-bit
encoding of `outlen * 8`) concatenated with the entropy chain, copies
`min(blocklen, outlen - len)` bytes, and increments the counter byte.  The
loop runs `⌈outlen / blocklen⌉` times; the iteration count is the fuel of
the recursion since the C loop advances by `min(blocklen, remaining)`. -/

/-- The `while (len < outlen)` loop of `gcry_drbg_hash_df`, recursing over
the iteration count with the counter byte `c` and the remaining byte count
`rem` threaded through. -/
def hashDfLoop (H : List Nat → List Nat) (blocklen : Nat) (lenField ent : List Nat) :
    Nat → Nat → Nat → List Nat
  | _, _, 0 => []
  | c, rem, k + 1 =>
    (H (c % 256 :: (lenField ++ ent))).take (min blocklen rem) ++
      hashDfLoop H blocklen lenField ent (c + 1) (rem - min blocklen rem) k

/-- Model of `gcry_drbg_hash_df`: derive `outlen` bytes from the entropy chain
`ent` (flattened to its bytes) using hash `H` with output size
`blocklen`. -/
def gcry_drbg_hash_df (H : List Nat → List Nat) (blocklen outlen : Nat)
    (ent : List Nat) : List Nat :=
  hashDfLoop H blocklen (cpuToBe32 (outlen * 8 % 2 ^ 32)) ent 1 outlen
    ((outlen + blocklen - 1) / blocklen)

/-! ### CTR-DRBG (drbg.c lines 434-792)

The single-block AES encryption behind `gcry_drbg_sym` is the parameter
`enc : key → block → block`; `statelen` and `blocklen` are the core's table
values, `keylen = statelen - blocklen` as in `gcry_drbg_keylen`.  An
additional-input chain is a list of node byte-lists; `chainPresent`
mirrors the C presence test `addtl && 0 < addtl->len` on the head node. -/

/-- Condition `addtl && 0 < addtl->len`: presence test used by the CTR update and
generate functions. -/
def chainPresent : List (List Nat) → Bool
  | [] => false
  | h :: _ => decide (0 < h.length)

/-- XOR the bytes of `src` into the front of `dst`, leaving the bytes of
`dst` past the length of `src` unchanged (the byte-wise XOR loops of the C
code). -/
def xorInto (dst src : List Nat) : List Nat :=
  List.zipWith (fun a b => a ^^^ b) dst src ++ dst.drop src.length

/-- Inner loop of `gcry_drbg_ctr_bcc`: per block, XOR the next `blocklen`
input bytes into the chaining value and encrypt it. -/
def bccLoop (enc : List Nat → List Nat → List Nat) (key : List Nat) (blocklen : Nat) :
    Nat → List Nat → List Nat → List Nat
  | 0, chain, _ => chain
  | n + 1, chain, data => bccLoop enc key blocklen n (enc key (xorInto chain (data.take blocklen))) (data.drop blocklen)

/-- Model of `gcry_drbg_ctr_bcc` (drbg.c lines 434-488): CBC-MAC without truncation
over the concatenated input bytes, starting from a zero chaining value. -/
def gcry_drbg_ctr_bcc (enc : List Nat → List Nat → List Nat) (blocklen : Nat)
    (key data : List Nat) : List Nat :=
  bccLoop enc key blocklen ((data.length + blocklen - 1) / blocklen)
    (List.replicate blocklen 0) data

/-- Whether a `struct gcry_drbg_string` node's `next` field is NULL or
points at the `S4` pad node that `gcry_drbg_ctr_df` keeps on its stack. -/
inductive TailNext where
  | null : TailNext
  | padNode : TailNext
deriving DecidableEq

/-- Output loop of `gcry_drbg_ctr_df` (10.4.2 step 13): repeatedly encrypt
the block `X` under the derived key and emit it. -/
def ctrDfOut (enc : List Nat → List Nat → List Nat) (key : List Nat) :
    Nat → List Nat → List Nat
  | 0, _ => []
  | n + 1, X =>
    let X' := enc key X
    X' ++ ctrDfOut enc key n X'

/-- Model of `gcry_drbg_ctr_df` (drbg.c lines 532-648).  Returns the derived bytes
(or `GPG_ERR_INV_ARG` when more than 512/8 bytes are requested) together
with the final value of the caller chain's tail `next` pointer: the
function splices its stack pad node `S4` onto the caller's tail
(`tempstr->next = &S4`) after the length check and performs no further
assignment to that field before returning. -/
def gcry_drbg_ctr_df (enc : List Nat → List Nat → List Nat) (statelen blocklen : Nat)
    (bytes_to_return : Nat) (addtl : List (List Nat)) :
    Except Nat (List Nat) × TailNext :=
  if 512 / 8 < bytes_to_return then (Except.error GPG_ERR_INV_ARG, TailNext.null)
  else
    let keylen := statelen - blocklen
    let inputlen := (addtl.map List.length).sum
    let L_N := cpuToBe32 (inputlen % 2 ^ 32) ++ cpuToBe32 (bytes_to_return % 2 ^ 32)
    let padlen0 := (inputlen + 8 + 1) % blocklen
    let padlen := (if padlen0 ≠ 0 then blocklen - padlen0 else 0) + 1
    let pad := 128 :: List.replicate (padlen - 1) 0
    let K := (List.range 32).take keylen
    let nBcc := (keylen + blocklen + blocklen - 1) / blocklen
    let temp := (List.range nBcc).map (fun i =>
      gcry_drbg_ctr_bcc enc blocklen K
        ((cpuToBe32 (i % 2 ^ 32) ++ List.replicate (blocklen - 4) 0) ++
          L_N ++ addtl.flatten ++ pad))
    let tempBytes := temp.flatten
    let X := (tempBytes.drop keylen).take blocklen
    let newKey := tempBytes.take keylen
    let out := (ctrDfOut enc newKey ((bytes_to_return + blocklen - 1) / blocklen) X).take
      bytes_to_return
    (Except.ok out, TailNext.padNode)

/-- The block-generation loop shared by `gcry_drbg_ctr_update` (10.2.1.2
step 2) and `gcry_drbg_ctr_generate` (10.2.1.5.2 step 4): per iteration the
counter `V` is incremented by one as a big-endian integer and the result is
encrypted under `key`.  Returns the concatenated blocks and the final
counter. -/
def ctrBlocks (enc : List Nat → List Nat → List Nat) (key : List Nat) :
    Nat → List Nat → List Nat × List Nat
  | 0, V => ([], V)
  | n + 1, V =>
    let V' := gcry_drbg_add_buf V [1]
    let r := ctrBlocks enc key n V'
    (enc key V' ++ r.1, r.2)

/-- Steps 2-6 of the CTR update (10.2.1.2): generate `statelen` bytes from
the counter, XOR the provided data `P` into them, and split the result into
the new key and counter. -/
def ctrUpdateCore (enc : List Nat → List Nat → List Nat) (statelen blocklen : Nat)
    (K V P : List Nat) : List Nat × List Nat :=
  let keylen := statelen - blocklen
  let temp := (ctrBlocks enc K ((statelen + blocklen - 1) / blocklen) V).1
  let temp' := xorInto (temp.take statelen) P
  (temp'.take keylen, (temp'.drop keylen).take blocklen)

/-- Model of `gcry_drbg_ctr_update` (drbg.c lines 665-731).  `dfData` is the
`df_data` area of the scratchpad, threaded explicitly: it is zeroized on
entry unless `reseed = 3`, overwritten with the derivation-function output
when additional input is present (the `reseed` flag is otherwise unused for
the DF — the C code recomputes it each time, see the TODO at line 684), and
zeroized again on exit unless `reseed = 2`.  Returns the new `(K, V)` pair
and the `df_data` contents left behind. -/
def gcry_drbg_ctr_update (enc : List Nat → List Nat → List Nat) (statelen blocklen : Nat)
    (K V dfData : List Nat) (addtl : List (List Nat)) (reseed : Nat) :
    Except Nat ((List Nat × List Nat) × List Nat) :=
  let dfData0 := if reseed < 3 then List.replicate statelen 0 else dfData
  if chainPresent addtl then
    match (gcry_drbg_ctr_df enc statelen blocklen statelen addtl).1 with
    | Except.error e => Except.error e
    | Except.ok dfOut =>
      Except.ok (ctrUpdateCore enc statelen blocklen K V dfOut,
        if reseed = 2 then dfOut else List.replicate statelen 0)
  else
    Except.ok (ctrUpdateCore enc statelen blocklen K V dfData0,
      if reseed = 2 then dfData0 else List.replicate statelen 0)

/-- Output production of `gcry_drbg_ctr_generate` (10.2.1.5.2 step 4): the
counter is incremented once before the loop, then once more after each
block except the last; with `buflen = 0` the loop body never runs but the
initial increment still happens.  Returns the emitted bytes and the final
counter. -/
def ctrGenOut (enc : List Nat → List Nat → List Nat) (blocklen : Nat) (key : List Nat)
    (buflen : Nat) (V : List Nat) : List Nat × List Nat :=
  if buflen = 0 then ([], gcry_drbg_add_buf V [1])
  else
    let r := ctrBlocks enc key ((buflen + blocklen - 1) / blocklen) V
    (r.1.take buflen, r.2)

/-- Model of `gcry_drbg_ctr_generate` (drbg.c lines 738-787): update with flag 2
when additional input is present, produce the output bytes, update with
flag 3.  Returns the output bytes, the new `(K, V)` pair and the `df_data`
scratch contents left behind. -/
def gcry_drbg_ctr_generate (enc : List Nat → List Nat → List Nat) (statelen blocklen : Nat)
    (K V dfData : List Nat) (buflen : Nat) (addtl : List (List Nat)) :
    Except Nat (List Nat × (List Nat × List Nat) × List Nat) :=
  match (if chainPresent addtl then
      gcry_drbg_ctr_update enc statelen blocklen K V dfData addtl 2
    else Except.ok ((K, V), dfData)) with
  | Except.error e => Except.error e
  | Except.ok s1 =>
    let o := ctrGenOut enc blocklen s1.1.1 buflen s1.1.2
    match gcry_drbg_ctr_update enc statelen blocklen s1.1.1 o.2 s1.2 addtl 3 with
    | Except.error e => Except.error e
    | Except.ok s2 => Except.ok (o.1, s2.1, s2.2)

/-- Modelled from the spec (§4.3.3, refinement reference for the four-way
flag claim): the unoptimized CTR update, which runs the additional input
through the derivation function on every invocation (flag-1 semantics) and
keeps no `df_data` scratch between calls. -/
def ctrUpdateUnopt (enc : List Nat → List Nat → List Nat) (statelen blocklen : Nat)
    (K V : List Nat) (addtl : List (List Nat)) : Except Nat (List Nat × List Nat) :=
  if chainPresent addtl then
    match (gcry_drbg_ctr_df enc statelen blocklen statelen addtl).1 with
    | Except.error e => Except.error e
    | Except.ok dfOut => Except.ok (ctrUpdateCore enc statelen blocklen K V dfOut)
  else
    Except.ok (ctrUpdateCore enc statelen blocklen K V (List.replicate statelen 0))

/-- Modelled from the spec (§4.3.3, refinement reference): CTR generate
built on the unoptimized update — update with the additional input when
present, produce the output, update again with the additional input. -/
def ctrGenerateUnopt (enc : List Nat → List Nat → List Nat) (statelen blocklen : Nat)
    (K V : List Nat) (buflen : Nat) (addtl : List (List Nat)) :
    Except Nat (List Nat × (List Nat × List Nat)) :=
  match (if chainPresent addtl then
      ctrUpdateUnopt enc statelen blocklen K V addtl
    else Except.ok (K, V)) with
  | Except.error e => Except.error e
  | Except.ok s1 =>
    let o := ctrGenOut enc blocklen s1.1 buflen s1.2
    match ctrUpdateUnopt enc statelen blocklen s1.1 o.2 addtl with
    | Except.error e => Except.error e
    | Except.ok s2 => Except.ok (o.1, s2)

/-! ### `gcry_drbg_sym` (drbg.c lines 2315-2340)

The backend block cipher is external; its reported block length is the
`backendBlklen` parameter and its single-block encryption the `enc`
parameter.  When the core's block length disagrees with the backend's, or
the input is longer than one block, the C code returns
`-GPG_ERR_NO_ERROR` (unsigned negation of the success value) without
encrypting; `none` in the result stands for the untouched `outval`
buffer. -/
def gcry_drbg_sym (enc : List Nat → List Nat → List Nat) (statelen blocklen backendBlklen : Nat)
    (key buf : List Nat) : Nat × Option (List Nat) :=
  if blocklen ≠ backendBlklen then (gpgErrNeg GPG_ERR_NO_ERROR, none)
  else if blocklen < buf.length then (gpgErrNeg GPG_ERR_NO_ERROR, none)
  else (0, some (enc (key.take (statelen - blocklen)) buf))

/-! ### Health check (`gcry_drbg_healthcheck_one`, drbg.c lines 2145-2158) -/

/-- Model of `memcmp` over byte lists: 0 when the compared ranges agree, otherwise
the difference of the first differing pair. -/
def memcmpBytes : List Nat → List Nat → Int
  | [], _ => 0
  | _, [] => 0
  | a :: as, b :: bs => if a ≠ b then (a : Int) - (b : Int) else memcmpBytes as bs

/-- Model of `gcry_drbg_healthcheck_one`: run the CAVS vector (its returned code is
`cavsRet`, the generated bytes land in `buf`, which starts zero-filled from
`xcalloc_secure`), then overwrite the return code with the result of
comparing the expected bytes against the buffer. -/
def gcry_drbg_healthcheck_one (cavsRet : Int) (expected buf : List Nat) : Int :=
  let ret := cavsRet
  let ret := memcmpBytes expected buf
  ret

/-! ### Toy primitive instances, used to evaluate the theorems at concrete
inputs -/

/-- A concrete stand-in block encryption for witnesses: bytewise affine mix
of key and block. -/
def encToy : List Nat → List Nat → List Nat :=
  fun k v => List.zipWith (fun a b => (a + b * 3 + 1) % 256) k v

/-- A concrete stand-in hash with 2-byte output for witnesses. -/
def hashToy : List Nat → List Nat :=
  fun x => [x.length % 256, x.sum % 256]

/-! ## Theorems -/

/-! ### Helper lemmas on byte values -/

/-- A byte list whose entries are below 256 denotes a value below
`256 ^ length`. -/
theorem leToNat_lt_of_bytes {l : List Nat} (h : ∀ b ∈ l, b < 256) :
    leToNat l < 256 ^ l.length := by
  induction l with
  | nil => simp [leToNat]
  | cons b bs ih =>
    have hb : b < 256 := h b (List.mem_cons_self b bs)
    have hbs := ih (fun x hx => h x (List.mem_cons_of_mem _ hx))
    simp only [leToNat, List.length_cons, pow_succ']
    omega

/-- Absorbing one little-endian digit into a truncating modulus. -/
theorem add_mul_mod_step (r x n : Nat) (hr : r < 256) :
    r + 256 * (x % 256 ^ n) = (r + 256 * x) % 256 ^ (n + 1) := by
  have hM : 0 < 256 ^ n := pow_pos (by norm_num) n
  have hx : x % 256 ^ n < 256 ^ n := Nat.mod_lt _ hM
  have hlt : r + 256 * (x % 256 ^ n) < 256 ^ (n + 1) := by
    rw [pow_succ']
    omega
  have hcong : (r + 256 * (x % 256 ^ n)) % 256 ^ (n + 1) = (r + 256 * x) % 256 ^ (n + 1) := by
    rw [pow_succ']
    exact Nat.ModEq.add_left r (Nat.ModEq.mul_left' 256 (Nat.mod_modEq x (256 ^ n)))
  rw [← Nat.mod_eq_of_lt hlt, hcong]

/-- The carry loop preserves the buffer length. -/
theorem addBufCarry_length (ds : List Nat) (c : Nat) :
    (addBufCarry ds c).length = ds.length := by
  induction ds generalizing c with
  | nil => rfl
  | cons d ds ih =>
    simp only [addBufCarry]
    split
    · simp [ih]
    · rfl

/-- The carry loop adds the carry (at most 1) to the little-endian value,
modulo the buffer size. -/
theorem addBufCarry_val (ds : List Nat) (c : Nat) (hc : c ≤ 1)
    (h : ∀ b ∈ ds, b < 256) :
    leToNat (addBufCarry ds c) = (c + leToNat ds) % 256 ^ ds.length := by
  induction ds generalizing c with
  | nil =>
    simp only [addBufCarry, leToNat, List.length_nil, pow_zero, Nat.mod_one]
  | cons d ds ih =>
    have hd : d < 256 := h d (List.mem_cons_self d ds)
    have htl : ∀ b ∈ ds, b < 256 := fun x hx => h x (List.mem_cons_of_mem _ hx)
    by_cases hc0 : 0 < c
    · have hc1 : c = 1 := by omega
      subst hc1
      simp only [addBufCarry, if_pos hc0, leToNat, List.length_cons]
      rw [ih ((d + 1) / 256) (by omega) htl,
        add_mul_mod_step _ _ _ (Nat.mod_lt _ (by norm_num))]
      congr 1
      omega
    · have hc0' : c = 0 := by omega
      subst hc0'
      have hlt := leToNat_lt_of_bytes h
      simp only [addBufCarry, if_neg hc0, zero_add]
      rw [Nat.mod_eq_of_lt hlt]

/-- The byte-addition loop preserves the destination length. -/
theorem addBufBytes_length (ds as : List Nat) (c : Nat) (hlen : as.length ≤ ds.length) :
    (addBufBytes ds as c).length = ds.length := by
  induction as generalizing ds c with
  | nil => simpa [addBufBytes] using addBufCarry_length ds c
  | cons a as ih =>
    cases ds with
    | nil => simp at hlen
    | cons d ds =>
      simp only [addBufBytes, List.length_cons]
      rw [ih ds _ (by simpa using hlen)]

/-- The byte-addition loop computes the little-endian sum with carry,
modulo the destination size. -/
theorem addBufBytes_val (as ds : List Nat) (c : Nat) (hc : c ≤ 1)
    (hlen : as.length ≤ ds.length) (hd : ∀ b ∈ ds, b < 256) (ha : ∀ b ∈ as, b < 256) :
    leToNat (addBufBytes ds as c) = (c + leToNat ds + leToNat as) % 256 ^ ds.length := by
  induction as generalizing ds c with
  | nil =>
    simp only [addBufBytes, leToNat, add_zero]
    exact addBufCarry_val ds c hc hd
  | cons a as ih =>
    cases ds with
    | nil => simp at hlen
    | cons d ds =>
      have hdd : d < 256 := hd d (List.mem_cons_self d ds)
      have haa : a < 256 := ha a (List.mem_cons_self a as)
      have htd : ∀ b ∈ ds, b < 256 := fun x hx => hd x (List.mem_cons_of_mem _ hx)
      have hta : ∀ b ∈ as, b < 256 := fun x hx => ha x (List.mem_cons_of_mem _ hx)
      simp only [addBufBytes, leToNat, List.length_cons]
      rw [ih ds _ (by omega) (by simpa using hlen) htd hta,
        add_mul_mod_step _ _ _ (Nat.mod_lt _ (by norm_num))]
      congr 1
      omega

/-- Claim C8: for byte buffers `dst` and `add` with `|add| ≤ |dst|`, the
big-endian add helper rewrites `dst` to the big-endian representation of
`(int(dst) + int(add)) mod 256 ^ |dst|`, reading buffers as big-endian
unsigned integers; in particular the length of `dst` is preserved. -/
theorem gcry_drbg_add_buf_be_add (dst add : List Nat)
    (hlen : add.length ≤ dst.length)
    (hd : ∀ b ∈ dst, b < 256) (ha : ∀ b ∈ add, b < 256) :
    (gcry_drbg_add_buf dst add).length = dst.length ∧
    beToNat (gcry_drbg_add_buf dst add) = (beToNat dst + beToNat add) % 256 ^ dst.length := by
  have hd' : ∀ b ∈ dst.reverse, b < 256 := fun x hx => hd x (List.mem_reverse.mp hx)
  have ha' : ∀ b ∈ add.reverse, b < 256 := fun x hx => ha x (List.mem_reverse.mp hx)
  have hlen' : add.reverse.length ≤ dst.reverse.length := by simpa using hlen
  constructor
  · simp [gcry_drbg_add_buf, addBufBytes_length _ _ _ hlen']
  · simp only [gcry_drbg_add_buf, beToNat, List.reverse_reverse]
    rw [addBufBytes_val add.reverse dst.reverse 0 (by omega) hlen' hd' ha']
    simp

/-- Witness for C8 at the concrete input `dst = [1,2,3]`, `add = [0,255]`:
`0x010203 + 0x00ff = 0x010302`. -/
theorem gcry_drbg_add_buf_be_add_witness :
    (gcry_drbg_add_buf [1, 2, 3] [0, 255]).length = 3 ∧
    beToNat (gcry_drbg_add_buf [1, 2, 3] [0, 255]) =
      (beToNat [1, 2, 3] + beToNat [0, 255]) % 256 ^ 3 :=
  gcry_drbg_add_buf_be_add [1, 2, 3] [0, 255] (by decide) (by decide) (by decide)

/-! ### Hash_df (claim C4) -/

/-- Sum of the lengths of blocks that all have length `bl`. -/
theorem sum_map_length_const {α : Type} (f : Nat → List α) (bl : Nat)
    (hf : ∀ i, (f i).length = bl) (k : Nat) :
    (((List.range k).map f).map List.length).sum = k * bl := by
  induction k with
  | zero => simp
  | succ n ih =>
    rw [List.range_succ]
    simp only [List.map_append, List.map_cons, List.map_nil, List.sum_append, ih,
      List.sum_cons, List.sum_nil, hf]
    ring

/-- Closed form of the `gcry_drbg_hash_df` loop: when the hash writes `bl`
bytes per call, the loop with counter byte `c` and `rem` remaining bytes
produces the first `rem` bytes of the concatenated hash blocks for counters
`c, c+1, …`. -/
theorem hashDfLoop_closed (H : List Nat → List Nat) (bl : Nat) (lf ent : List Nat)
    (hH : ∀ x, (H x).length = bl) (k : Nat) :
    ∀ c rem, hashDfLoop H bl lf ent c rem k =
      (List.flatten ((List.range k).map
        (fun i => H ((c + i) % 256 :: (lf ++ ent))))).take rem := by
  induction k with
  | zero =>
    intro c rem
    simp [hashDfLoop]
  | succ n ih =>
    intro c rem
    simp only [hashDfLoop]
    rw [ih (c + 1) (rem - min bl rem), List.range_succ_eq_map]
    simp only [List.map_cons, List.map_map, List.flatten_cons]
    rw [List.take_append_eq_append_take, hH]
    have h1 : (H ((c + 0) % 256 :: (lf ++ ent))).take (min bl rem) =
        (H ((c + 0) % 256 :: (lf ++ ent))).take rem := by
      rcases le_total bl rem with h | h
      · rw [min_eq_left h, List.take_of_length_le (by rw [hH]),
          List.take_of_length_le (by rw [hH]; exact h)]
      · rw [min_eq_right h]
    have h2 : ((List.range n).map (fun i => H ((c + 1 + i) % 256 :: (lf ++ ent)))) =
        ((List.range n).map ((fun i => H ((c + i) % 256 :: (lf ++ ent))) ∘ Nat.succ)) := by
      apply List.map_congr_left
      intro a _
      simp only [Function.comp]
      have : c + 1 + a = c + (a + 1) := by omega
      rw [this]
    have h3 : rem - min bl rem = rem - bl := by omega
    rw [h3] at *
    rw [← h2] at *
    simp only [Nat.add_zero] at *
    rw [h1]

/-- Claim C4: `gcry_drbg_hash_df` produces exactly `L` bytes, namely the
first `L` bytes of the concatenation of the hash blocks
`H(counter ‖ BE32(L·8) ‖ in)` where the one-byte counter starts at 1 and is
incremented by 1 after each block (so block `i` keeps only the first
`min(outlen, L − produced)` bytes). -/
theorem gcry_drbg_hash_df_spec (H : List Nat → List Nat) (bl L : Nat) (ent : List Nat)
    (hH : ∀ x, (H x).length = bl) (hbl : 0 < bl) :
    (gcry_drbg_hash_df H bl L ent).length = L ∧
    gcry_drbg_hash_df H bl L ent =
      (List.flatten ((List.range ((L + bl - 1) / bl)).map
        (fun i => H ((1 + i) % 256 :: (cpuToBe32 (L * 8 % 2 ^ 32) ++ ent))))).take L := by
  have hmain := hashDfLoop_closed H bl (cpuToBe32 (L * 8 % 2 ^ 32)) ent hH
    ((L + bl - 1) / bl) 1 L
  refine ⟨?_, hmain⟩
  rw [gcry_drbg_hash_df, hmain, List.length_take, List.length_flatten,
    sum_map_length_const _ bl (fun i => hH _) _]
  have hq := @Nat.lt_div_mul_add (L + bl - 1) bl hbl
  generalize (L + bl - 1) / bl * bl = X at hq ⊢
  omega

/-- Witness for C4 at a concrete hash with 2-byte output, `L = 5` and a
1-byte input chain. -/
theorem gcry_drbg_hash_df_spec_witness :
    (gcry_drbg_hash_df hashToy 2 5 [9]).length = 5 ∧
    gcry_drbg_hash_df hashToy 2 5 [9] =
      (List.flatten ((List.range ((5 + 2 - 1) / 2)).map
        (fun i => hashToy ((1 + i) % 256 :: (cpuToBe32 (5 * 8 % 2 ^ 32) ++ [9]))))).take 5 :=
  gcry_drbg_hash_df_spec hashToy 2 5 [9] (fun _ => rfl) (by decide)

/-! ### Generate argument checks and control flow (claims C1, C2, C3) -/

/-- Claim C1: for every DRBG state and mechanism, a generate call with a
NULL output buffer, a zero or over-large (`> 2^16`) request length, or an
additional input longer than `2^35` bytes returns `GPG_ERR_INV_ARG`, writes
no output bytes and leaves the state untouched. -/
theorem gcry_drbg_generate_invalid_arg (ops : MechOps) (entropy : Option (List Nat))
    (st : GState) (bufNull : Bool) (buflen : Nat) (addtl : Option DrbgStr)
    (h : bufNull = true ∨ buflen = 0 ∨ gcry_drbg_max_request_bytes < buflen ∨
      (∃ a, addtl = some a ∧ gcry_drbg_max_addtl < a.len)) :
    gcry_drbg_generate ops entropy st bufNull buflen addtl = (GPG_ERR_INV_ARG, st, []) := by
  unfold gcry_drbg_generate
  split_ifs with h1 h2 h3 h4 <;> try rfl
  all_goals exfalso
  all_goals simp only [Bool.or_eq_true, decide_eq_true_eq] at h1
  all_goals rcases h with h' | h' | h' | ⟨a, ha, hlen⟩
  all_goals first
    | exact h1 (Or.inr h')
    | exact h1 (Or.inl h')
    | exact h3 h'
    | (subst ha; exact h4 (by simp [addtlTooLong, hlen]))

/-- Witness for C1 at a concrete over-long request (`buflen = 2^16 + 1`). -/
theorem gcry_drbg_generate_invalid_arg_witness :
    gcry_drbg_generate zeroOps (some [1]) ⟨[2], [3], 1, true, false⟩ false (2 ^ 16 + 1) none =
      (GPG_ERR_INV_ARG, ⟨[2], [3], 1, true, false⟩, []) :=
  gcry_drbg_generate_invalid_arg zeroOps (some [1]) ⟨[2], [3], 1, true, false⟩ false
    (2 ^ 16 + 1) none (by right; right; left; decide)

/-- Claim C2: for a generate call that passes the argument checks, when
prediction resistance is on, the instance is unseeded, or the reseed
counter exceeds `2^48` (in which case the seeded flag is cleared first),
the call reseeds with the caller's additional input and then invokes the
mechanism generate with a NULL additional input, so the additional input
is consumed by the reseed and not mixed in a second time. -/
theorem gcry_drbg_generate_reseed_path (ops : MechOps) (entropy : Option (List Nat))
    (st : GState) (bufNull : Bool) (buflen : Nat) (addtl : Option DrbgStr)
    (hbuf : bufNull = false) (hpos : 0 < buflen)
    (hmax : buflen ≤ gcry_drbg_max_request_bytes)
    (hmal : addtlMalformed addtl = false) (hlong : addtlTooLong addtl = false)
    (hres : st.pr = true ∨ st.seeded = false ∨ gcry_drbg_max_requests < st.reseed_ctr) :
    gcry_drbg_generate ops entropy st bufNull buflen addtl =
      (let st1 := if gcry_drbg_max_requests < st.reseed_ctr then
          { st with seeded := false } else st
       let r := gcry_drbg_seed ops entropy st1 addtl 1
       if r.1 ≠ 0 then (r.1, r.2, [])
       else
         let g := ops.generate r.2 buflen none
         (g.1, { g.2.1 with reseed_ctr := g.2.1.reseed_ctr + 1 }, g.2.2)) := by
  unfold gcry_drbg_generate
  rw [if_neg (by simp [hbuf]; omega), if_neg (by simp [hmal]), if_neg (by omega),
    if_neg (by simp [hlong])]
  have hcond : ((if gcry_drbg_max_requests < st.reseed_ctr then
      { st with seeded := false } else st).pr ||
      !(if gcry_drbg_max_requests < st.reseed_ctr then
      { st with seeded := false } else st).seeded) = true := by
    rcases hres with h | h | h
    · have : (if gcry_drbg_max_requests < st.reseed_ctr then
          { st with seeded := false } else st).pr = true := by
        split <;> simpa using h
      simp [this]
    · have : (if gcry_drbg_max_requests < st.reseed_ctr then
          { st with seeded := false } else st).seeded = false := by
        split
        · rfl
        · simpa using h
      simp [this]
    · rw [if_pos h]
      simp
  rw [if_pos hcond]

/-- Witness for C2: a concrete unseeded state reseeds with the caller's
additional input and then generates with NULL additional input. -/
theorem gcry_drbg_generate_reseed_path_witness :
    gcry_drbg_generate zeroOps (some [1]) ⟨[2], [3], 4, false, false⟩ false 5
      (some ⟨some [7], 1, true⟩) =
      (let st1 := if gcry_drbg_max_requests < (4 : Nat) then
          { GState.mk [2] [3] 4 false false with seeded := false }
        else ⟨[2], [3], 4, false, false⟩
       let r := gcry_drbg_seed zeroOps (some [1]) st1 (some ⟨some [7], 1, true⟩) 1
       if r.1 ≠ 0 then (r.1, r.2, [])
       else
         let g := zeroOps.generate r.2 5 none
         (g.1, { g.2.1 with reseed_ctr := g.2.1.reseed_ctr + 1 }, g.2.2)) :=
  gcry_drbg_generate_reseed_path zeroOps (some [1]) ⟨[2], [3], 4, false, false⟩ false 5
    (some ⟨some [7], 1, true⟩) rfl (by decide) (by decide) (by decide) (by decide)
    (Or.inr (Or.inl rfl))

/-- Counterexample to claim C3: a mechanism generate that fails with the
state untouched still comes back from `gcry_drbg_generate` with the reseed
counter incremented, so on an error return the triple
(V, C, reseed_counter) is not left unchanged. -/
theorem gcry_drbg_generate_error_changes_ctr :
    (gcry_drbg_generate failingOps (some [1]) ⟨[2], [3], 5, true, false⟩ false 5 none).1 ≠ 0 ∧
    (gcry_drbg_generate failingOps (some [1]) ⟨[2], [3], 5, true, false⟩
      false 5 none).2.1.reseed_ctr ≠ 5 := by
  decide

/-- Claim C3 as amended: on the no-reseed path, `gcry_drbg_generate`
passes the mechanism's error code through unchanged, returns exactly the
bytes the mechanism wrote (adding none of its own and discarding none),
leaves V and C exactly as the mechanism left them, and increments the
reseed counter by one — on error returns as on success. -/
theorem gcry_drbg_generate_mech_passthrough (ops : MechOps) (entropy : Option (List Nat))
    (st : GState) (bufNull : Bool) (buflen : Nat) (addtl : Option DrbgStr)
    (hbuf : bufNull = false) (hpos : 0 < buflen)
    (hmax : buflen ≤ gcry_drbg_max_request_bytes)
    (hmal : addtlMalformed addtl = false) (hlong : addtlTooLong addtl = false)
    (hpr : st.pr = false) (hseeded : st.seeded = true)
    (hctr : st.reseed_ctr ≤ gcry_drbg_max_requests) :
    gcry_drbg_generate ops entropy st bufNull buflen addtl =
      ((ops.generate st buflen addtl).1,
       { (ops.generate st buflen addtl).2.1 with
          reseed_ctr := (ops.generate st buflen addtl).2.1.reseed_ctr + 1 },
       (ops.generate st buflen addtl).2.2) := by
  unfold gcry_drbg_generate
  rw [if_neg (show ¬((decide (buflen = 0) || bufNull) = true) by simp [hbuf]; omega),
    if_neg (show ¬(addtlMalformed addtl = true) by simp [hmal]),
    if_neg (show ¬gcry_drbg_max_request_bytes < buflen by omega),
    if_neg (show ¬(addtlTooLong addtl = true) by simp [hlong]),
    if_neg (show ¬gcry_drbg_max_requests < st.reseed_ctr by omega)]
  rw [if_neg (show ¬((st.pr || !st.seeded) = true) by simp [hpr, hseeded])]

/-- Witness for the amended C3 at a concrete failing mechanism: the error
code 1 is passed through, V and C are untouched and the reseed counter
goes from 5 to 6. -/
theorem gcry_drbg_generate_mech_passthrough_witness :
    gcry_drbg_generate failingOps (some [1]) ⟨[2], [3], 5, true, false⟩ false 7 none =
      ((failingOps.generate ⟨[2], [3], 5, true, false⟩ 7 none).1,
       { (failingOps.generate ⟨[2], [3], 5, true, false⟩ 7 none).2.1 with
          reseed_ctr :=
            (failingOps.generate ⟨[2], [3], 5, true, false⟩ 7 none).2.1.reseed_ctr + 1 },
       (failingOps.generate ⟨[2], [3], 5, true, false⟩ 7 none).2.2) :=
  gcry_drbg_generate_mech_passthrough failingOps (some [1]) ⟨[2], [3], 5, true, false⟩
    false 7 none rfl (by decide) (by decide) (by decide) (by decide) rfl rfl (by decide)

/-! ### CTR-DRBG four-way flag (claim C5) -/

/-- Claim C5: the four-way reseed flag of the CTR update is only an
optimization.  Starting from a zeroized `df_data` scratch area (the
invariant every preceding update call leaves behind), a generate call that
invokes update with flags 2 and 3 returns the same output and the same
`(K, V)` state as the unoptimized scheme that invokes the flag-1-style
update and runs the additional input through the derivation function each
time — and it leaves `df_data` zeroized again. -/
theorem gcry_drbg_ctr_generate_flag_equiv (enc : List Nat → List Nat → List Nat)
    (statelen blocklen : Nat) (K V : List Nat) (buflen : Nat)
    (addtl : List (List Nat)) :
    gcry_drbg_ctr_generate enc statelen blocklen K V (List.replicate statelen 0)
        buflen addtl =
      (ctrGenerateUnopt enc statelen blocklen K V buflen addtl).map
        (fun r => (r.1, r.2, List.replicate statelen 0)) := by
  unfold gcry_drbg_ctr_generate ctrGenerateUnopt gcry_drbg_ctr_update ctrUpdateUnopt
  cases hp : chainPresent addtl
  · simp [hp, Except.map]
  · cases hdf : (gcry_drbg_ctr_df enc statelen blocklen statelen addtl).1
    · simp [hp, hdf, Except.map]
    · simp [hp, hdf, Except.map]

/-! ### Chain splice in `gcry_drbg_ctr_df` (claim C6) -/

/-- Counterexample to claim C6: at a concrete input, `gcry_drbg_ctr_df`
returns with the caller tail's `next` pointer still aimed at the stack pad
node it spliced in, not reset to NULL. -/
theorem gcry_drbg_ctr_df_tail_dangles :
    (gcry_drbg_ctr_df encToy 32 16 32 [[1, 2, 3]]).2 ≠ TailNext.null := by
  decide

/-- Claim C6 as amended: whenever the request passes the 512/8-byte length
check (so the splice is executed), `gcry_drbg_ctr_df` returns with the
caller tail's `next` pointer aimed at its own stack pad node `S4`; the
reset to NULL is not performed by the derivation function but is left to
its callers, which clear the chain head's `next` before each reuse. -/
theorem gcry_drbg_ctr_df_tail_padNode (enc : List Nat → List Nat → List Nat)
    (statelen blocklen bytes_to_return : Nat) (addtl : List (List Nat))
    (h : bytes_to_return ≤ 512 / 8) :
    (gcry_drbg_ctr_df enc statelen blocklen bytes_to_return addtl).2 =
      TailNext.padNode := by
  unfold gcry_drbg_ctr_df
  rw [if_neg (by omega)]

/-- Witness for the amended C6 at a concrete input. -/
theorem gcry_drbg_ctr_df_tail_padNode_witness :
    (gcry_drbg_ctr_df encToy 32 16 32 [[1, 2, 3]]).2 = TailNext.padNode :=
  gcry_drbg_ctr_df_tail_padNode encToy 32 16 32 [[1, 2, 3]] (by decide)

/-! ### Seed entropy request lengths (claim C7) -/

/-- Claim C7: for every mechanism the security strength is 16, 24 or 32
bytes; the initial seeding performed by instantiate (`reseed = 0`) requests
exactly 1.5 times the strength (the strengths are even, so
`((s+1)/2)*3 = ⌈1.5·s⌉ = 1.5·s`), while a reseed requests exactly the
strength. -/
theorem gcry_drbg_seed_entropylen_spec (flags : DrbgFlags) :
    2 * gcry_drbg_seed_entropylen flags 0 = 3 * gcry_drbg_sec_strength flags ∧
    gcry_drbg_seed_entropylen flags 1 = gcry_drbg_sec_strength flags ∧
    (gcry_drbg_sec_strength flags = 16 ∨ gcry_drbg_sec_strength flags = 24 ∨
      gcry_drbg_sec_strength flags = 32) := by
  rcases flags with ⟨a, b, c, d, e, f, g⟩
  cases a <;> cases b <;> cases c <;> cases d <;> cases e <;> cases f <;> cases g <;> decide

/-! ### `gcry_drbg_sym` block-length mismatch (claim C9) -/

/-- Claim C9 evaluated at a failing input (mechanism block length 16, the
backend cipher reporting block length 8): the block-length-mismatch path of
`gcry_drbg_sym` does not write the output block, but its return value
`-GPG_ERR_NO_ERROR` is the unsigned negation of 0 and therefore equals
`GPG_ERR_NO_ERROR` itself — the 0 success code, not a distinct error
value. -/
theorem gcry_drbg_sym_mismatch_returns_success :
    gcry_drbg_sym encToy 32 16 8 (List.replicate 16 0) [5] = (GPG_ERR_NO_ERROR, none) ∧
    gpgErrNeg GPG_ERR_NO_ERROR = GPG_ERR_NO_ERROR := by
  constructor
  · rfl
  · decide

/-! ### Health check verdict (claim C10) -/

/-- Lemma: `memcmpBytes` is zero exactly on equal byte lists of equal length. -/
theorem memcmpBytes_eq_zero_iff (xs ys : List Nat) (hlen : xs.length = ys.length) :
    (memcmpBytes xs ys = 0 ↔ xs = ys) := by
  induction xs generalizing ys with
  | nil =>
    cases ys with
    | nil => simp [memcmpBytes]
    | cons y ys => simp at hlen
  | cons x xs ih =>
    cases ys with
    | nil => simp at hlen
    | cons y ys =>
      simp only [memcmpBytes]
      by_cases hxy : x = y
      · subst hxy
        rw [if_neg (show ¬x ≠ x from by simp)]
        rw [ih ys (by simpa using hlen)]
        simp
      · rw [if_pos hxy]
        constructor
        · intro h0
          exfalso
          have hz : (x : Int) = y := by omega
          exact hxy (by exact_mod_cast hz)
        · intro h
          injection h with h1 _
          subst h1
          simp

/-- Claim C10: the verdict of `gcry_drbg_healthcheck_one` is exactly the
byte comparison of the expected output against the buffer — the error code
returned by `gcry_drbg_cavs_test` is discarded (any two return codes give
the same verdict), and the verdict is success exactly when the buffer bytes
(still zero-filled if the vector execution failed before writing) equal the
expected bytes. -/
theorem gcry_drbg_healthcheck_one_verdict (r1 r2 : Int) (expected buf : List Nat)
    (hlen : expected.length = buf.length) :
    gcry_drbg_healthcheck_one r1 expected buf = memcmpBytes expected buf ∧
    gcry_drbg_healthcheck_one r1 expected buf = gcry_drbg_healthcheck_one r2 expected buf ∧
    (gcry_drbg_healthcheck_one r1 expected buf = 0 ↔ expected = buf) := by
  refine ⟨rfl, rfl, ?_⟩
  exact memcmpBytes_eq_zero_iff expected buf hlen

/-- Witness for C10: an instantiate failure reported as code 86 and a
success code 0 give the same verdict on a zero-filled buffer, and the
verdict only reports the byte difference. -/
theorem gcry_drbg_healthcheck_one_verdict_witness :
    gcry_drbg_healthcheck_one 86 [1, 2] [0, 0] = memcmpBytes [1, 2] [0, 0] ∧
    gcry_drbg_healthcheck_one 86 [1, 2] [0, 0] = gcry_drbg_healthcheck_one 0 [1, 2] [0, 0] ∧
    (gcry_drbg_healthcheck_one 86 [1, 2] [0, 0] = 0 ↔ [1, 2] = [0, 0]) :=
  gcry_drbg_healthcheck_one_verdict 86 0 [1, 2] [0, 0] rfl

end Drbg
